import Mathlib

/-!
Verification of the geographic coordinate sanitation and region-filtering
pipeline of the student-emotion dashboard, together with its CSV loader.

The dashboard source (`streamlit_app.py`) contains the loader
`carregar_dados` verbatim; the coordinate core (`CoordinateSanitizer`,
`RegionFilter`, `centroid`) is described by the design document but its
implementation is not part of the checked-in source, so those operations
are modelled from the spec, as flagged on each definition.

Coordinates are embedded as exact rationals (`ℚ`); a missing or non-finite
coordinate is embedded as `none`.  Threshold comparisons that the spec
phrases with fractions and means (`fraction > 0.6`, `mean |lon| < 30`) are
implemented in cleared-denominator form (`5 * wrong > 3 * n`,
`sum < 30 * n`), and the bridging to the fraction/mean form is proved in
the corresponding theorems.
-/

/-- One row of input data: latitude and longitude in decimal degrees
(`none` encodes a missing or non-finite value) plus opaque pass-through
attributes (emotion label, region label, frequency, performance, scores,
identifier). -/
structure PointRecord where
  latitude : Option ℚ
  longitude : Option ℚ
  attributes : List (String × String)
deriving DecidableEq, Repr

/-- Target hemisphere signs for the sanitizer, one per axis
(`-1` southern/western, `+1` northern/eastern). -/
structure HemisphereSign where
  lat : Int
  lon : Int
deriving DecidableEq, Repr

/-- Output of sanitization: how many longitude signs were flipped, how many
latitude signs were flipped, and whether the columns were found transposed
and swapped back. -/
structure CorrectionReport where
  lon_flips : Nat
  lat_flips : Nat
  swapped : Bool
deriving DecidableEq, Repr

/-- Modelled from the spec: a value has the sign opposite the target
hemisphere (e.g. positive when the target hemisphere sign is negative).
Zero has neither sign, hence is never wrong. -/
def wrongSign (target : Int) (v : ℚ) : Bool :=
  if target < 0 then decide (0 < v) else decide (v < 0)

/-- The record's longitude is present and wrong-signed for the target. -/
def wrongLon (target : Int) (r : PointRecord) : Bool :=
  match r.longitude with
  | some v => wrongSign target v
  | none => false

/-- The record's latitude is present and wrong-signed for the target. -/
def wrongLat (target : Int) (r : PointRecord) : Bool :=
  match r.latitude with
  | some v => wrongSign target v
  | none => false

/-- Negate the longitude of a record exactly when it is wrong-signed. -/
def negWrongLon (target : Int) (r : PointRecord) : PointRecord :=
  if wrongLon target r then
    { r with longitude := r.longitude.map (fun v => -v) }
  else r

/-- Negate the latitude of a record exactly when it is wrong-signed. -/
def negWrongLat (target : Int) (r : PointRecord) : PointRecord :=
  if wrongLat target r then
    { r with latitude := r.latitude.map (fun v => -v) }
  else r

/-- Modelled from the spec: longitude sign correction.  If the fraction of
wrong-signed longitudes exceeds 0.6 (cleared denominators:
`5 * wrong > 3 * n`), negate every wrong-signed longitude and report the
count; otherwise leave the batch unchanged and report zero. -/
def fixLonSigns (target : Int) (rs : List PointRecord) :
    List PointRecord × Nat :=
  if 3 * rs.length < 5 * rs.countP (wrongLon target) then
    (rs.map (negWrongLon target), rs.countP (wrongLon target))
  else (rs, 0)

/-- Modelled from the spec: latitude sign correction, same rule as for
longitude, applied independently. -/
def fixLatSigns (target : Int) (rs : List PointRecord) :
    List PointRecord × Nat :=
  if 3 * rs.length < 5 * rs.countP (wrongLat target) then
    (rs.map (negWrongLat target), rs.countP (wrongLat target))
  else (rs, 0)

/-- Exchange the latitude and longitude values of one record. -/
def swapRecord (r : PointRecord) : PointRecord :=
  { r with latitude := r.longitude, longitude := r.latitude }

/-- Absolute value contributed by an optional coordinate (0 when absent). -/
def absOpt (v : Option ℚ) : ℚ :=
  match v with
  | some q => |q|
  | none => 0

/-- Sum of absolute longitudes over the present longitude values. -/
def sumAbsLon (rs : List PointRecord) : ℚ :=
  (rs.map (fun r => absOpt r.longitude)).sum

/-- Sum of absolute latitudes over the present latitude values. -/
def sumAbsLat (rs : List PointRecord) : ℚ :=
  (rs.map (fun r => absOpt r.latitude)).sum

/-- Number of records with a present longitude. -/
def presentLonCount (rs : List PointRecord) : Nat :=
  rs.countP (fun r => r.longitude.isSome)

/-- Number of records with a present latitude. -/
def presentLatCount (rs : List PointRecord) : Nat :=
  rs.countP (fun r => r.latitude.isSome)

/-- Modelled from the spec: column-swap detection over the sign-corrected
batch.  Fires when the mean absolute longitude is below the 30-degree
plausible-longitude threshold and the mean absolute latitude exceeds it
(cleared denominators: `sum < 30 * count` and `30 * count < sum`). -/
def swapNeeded (rs : List PointRecord) : Bool :=
  decide (sumAbsLon rs < 30 * (presentLonCount rs : ℚ)) &&
  decide (30 * (presentLatCount rs : ℚ) < sumAbsLat rs)

/-- Modelled from the spec: `CoordinateSanitizer.sanitize`.  Applies, in
this fixed order, longitude sign correction, latitude sign correction and
column-swap detection, each step evaluated on the current state of the
data, and assembles the `CorrectionReport`. -/
def sanitize (tgt : HemisphereSign) (rs : List PointRecord) :
    List PointRecord × CorrectionReport :=
  let s1 := fixLonSigns tgt.lon rs
  let s2 := fixLatSigns tgt.lat s1.1
  if swapNeeded s2.1 then
    (s2.1.map swapRecord, ⟨s1.2, s2.2, true⟩)
  else
    (s2.1, ⟨s1.2, s2.2, false⟩)

/-- The batch after the two sign-correction steps of `sanitize` and before
swap detection. -/
def signFixed (tgt : HemisphereSign) (rs : List PointRecord) :
    List PointRecord :=
  (fixLatSigns tgt.lat (fixLonSigns tgt.lon rs).1).1

/-- Axis-aligned rectangle in decimal degrees. -/
structure BoundingBox where
  lat_min : ℚ
  lat_max : ℚ
  lon_min : ℚ
  lon_max : ℚ
deriving DecidableEq, Repr

/-- Modelled from the spec: boundary description as loaded from the
external source — an ordered sequence of closed rings of (lon, lat)
vertices, plus whether the description parsed into usable geometry (a
malformed description has `wellFormed = false`). -/
structure Boundary where
  rings : List (List (ℚ × ℚ))
  wellFormed : Bool
deriving DecidableEq, Repr

/-- Region definition: a literal bounding box or a polygon boundary. -/
inductive RegionDefinition where
  | box : BoundingBox → RegionDefinition
  | boundary : Boundary → RegionDefinition
deriving DecidableEq, Repr

/-- Output of region filtering: the retained records in input order and
the count of records removed. -/
structure FilterResult where
  records : List PointRecord
  removed_count : Nat
deriving DecidableEq, Repr

/-- Inclusive bounding-box containment test on present coordinates. -/
def inBox (b : BoundingBox) (la lo : ℚ) : Bool :=
  decide (b.lat_min ≤ la) && decide (la ≤ b.lat_max) &&
  decide (b.lon_min ≤ lo) && decide (lo ≤ b.lon_max)

/-- The closing edge list of a ring (each vertex to its successor, last
vertex back to the first). -/
def ringEdges (ring : List (ℚ × ℚ)) : List ((ℚ × ℚ) × (ℚ × ℚ)) :=
  match ring with
  | [] => []
  | v :: _ => ring.zip (ring.tail ++ [v])

/-- Exact point-on-segment test: collinear with the endpoints and inside
their coordinate range. -/
def onSegment (p a b : ℚ × ℚ) : Bool :=
  decide ((b.1 - a.1) * (p.2 - a.2) - (b.2 - a.2) * (p.1 - a.1) = 0) &&
  decide (min a.1 b.1 ≤ p.1) && decide (p.1 ≤ max a.1 b.1) &&
  decide (min a.2 b.2 ≤ p.2) && decide (p.2 ≤ max a.2 b.2)

/-- One edge crosses the horizontal ray to the right of `p` (half-open
vertical rule, exact rational intersection). -/
def crossesRay (p a b : ℚ × ℚ) : Bool :=
  (decide (a.2 ≤ p.2) != decide (b.2 ≤ p.2)) &&
  decide (p.1 < a.1 + (b.1 - a.1) * (p.2 - a.2) / (b.2 - a.2))

/-- Boundary-inclusive even-odd containment in one ring. -/
def inRing (ring : List (ℚ × ℚ)) (p : ℚ × ℚ) : Bool :=
  (ringEdges ring).any (fun e => onSegment p e.1 e.2) ||
  decide ((ringEdges ring).countP (fun e => crossesRay p e.1 e.2) % 2 = 1)

/-- Modelled from the spec: containment in the union of the region
polygons, points on any boundary counted as inside.  Zero polygons match
nothing. -/
def inUnion (rings : List (List (ℚ × ℚ))) (p : ℚ × ℚ) : Bool :=
  rings.any (fun ring => inRing ring p)

/-- Modelled from the spec: the region filter, holding whether the
geometry engine is available and the literal configured bounding box of
the target region (the box used by bounding-box mode and by the degraded
fallback of boundary mode). -/
structure RegionFilter where
  engineAvailable : Bool
  box : BoundingBox
deriving DecidableEq, Repr

/-- Retention predicate of one record under one region definition.
Records with a missing coordinate are never retained.  Boundary mode is
used only when the engine is available and the description is well
formed; otherwise the filter degrades to the configured bounding box. -/
def retains (f : RegionFilter) (region : RegionDefinition)
    (r : PointRecord) : Bool :=
  match r.latitude, r.longitude with
  | some la, some lo =>
      match region with
      | .box b => inBox b la lo
      | .boundary bd =>
          if f.engineAvailable && bd.wellFormed then
            inUnion bd.rings (lo, la)
          else inBox f.box la lo
  | _, _ => false

/-- Modelled from the spec: `RegionFilter.apply` — keep the in-region
subset in input order and count the exclusions. -/
def RegionFilter.apply (f : RegionFilter) (rs : List PointRecord)
    (region : RegionDefinition) : FilterResult :=
  let kept := rs.filter (retains f region)
  ⟨kept, rs.length - kept.length⟩

/-- Modelled from the spec: the fixed nominal center of the target region
(Espírito Santo), returned by `centroid` on an empty batch. -/
def NOMINAL_CENTER : ℚ × ℚ := (-39/2, -81/2)

/-- Modelled from the spec: `centroid` — arithmetic mean of the latitude
and longitude values of a non-empty batch, the fixed nominal center for
an empty one. -/
def centroid (rs : List PointRecord) : ℚ × ℚ :=
  if rs.isEmpty then NOMINAL_CENTER
  else ((rs.map (fun r => (r.latitude.getD 0))).sum / (presentLatCount rs : ℚ),
        (rs.map (fun r => (r.longitude.getD 0))).sum / (presentLonCount rs : ℚ))

/-- The two candidate CSV paths of `carregar_dados`, in the order the
source tries them: the corrected file first, then the original. -/
def candidatePaths : List String :=
  ["alunos_emocoes_1000_corrigido.csv", "alunos_emocoes_1000.csv"]

/-- Try the candidate paths in order with a fallible reader, returning the
first successfully read dataset and its path. -/
def tryPaths {α : Type} (read : String → Except String α) :
    List String → Option (α × String)
  | [] => none
  | p :: rest =>
      match read p with
      | .ok d => some (d, p)
      | .error _ => tryPaths read rest

/-- Embedding of `carregar_dados` (streamlit_app.py lines 20–27): loop
over the candidate paths, swallow any read exception and move on, return
the first `(dataframe, path)` pair that loads, or `(None, None)` —
embedded as `none` — when every candidate fails. -/
def carregar_dados {α : Type} (read : String → Except String α) :
    Option (α × String) :=
  tryPaths read candidatePaths

/-! Concrete fixtures shared by the witness theorems. -/

/-- The target hemisphere signs of the source's region (Espírito Santo:
southern and western hemisphere). -/
def esTarget : HemisphereSign := ⟨-1, -1⟩

/-- A concrete bounding box around the target region. -/
def box0 : BoundingBox := ⟨-21, -17, -42, -39⟩

/-- A filter with the geometry engine available. -/
def filter0 : RegionFilter := ⟨true, box0⟩

/-- A filter whose geometry engine is unavailable. -/
def filterNoEngine : RegionFilter := ⟨false, box0⟩

/-- A record exactly at the box corner (lat_min, lon_min). -/
def rec0 : PointRecord := ⟨some (-21), some (-42), [("id_aluno", "a1")]⟩

/-- A record 0.0001 degrees south of lat_min. -/
def rec1 : PointRecord := ⟨some (-21 - 1/10000), some (-42), []⟩

/-- A record with a missing longitude. -/
def recMissing : PointRecord := ⟨some (-20), none, []⟩

/-- A small concrete batch. -/
def rs0 : List PointRecord := [rec0, rec1, recMissing]

/-- A well-formed concrete triangular boundary. -/
def boundary0 : Boundary := ⟨[[(0, 0), (1, 0), (0, 1)]], true⟩

/-- Pointwise-equal Boolean predicates count the same. -/
theorem countP_congr_eq {α : Type} {p q : α → Bool} :
    ∀ l : List α, (∀ a ∈ l, p a = q a) → l.countP p = l.countP q := by
  intro l
  induction l with
  | nil => intro _; rfl
  | cons a l ih =>
      intro h
      rw [List.countP_cons, List.countP_cons, h a (by simp),
        ih (fun b hb => h b (by simp [hb]))]

/-- C4. For every filter, batch and region, the retained records form a
subsequence of the input (order preserved, no duplication) and the
retained length plus the removed count equals the input length. -/
theorem apply_conserves (f : RegionFilter) (rs : List PointRecord)
    (region : RegionDefinition) :
    ((f.apply rs region).records).Sublist rs ∧
      (f.apply rs region).records.length +
        (f.apply rs region).removed_count = rs.length := by
  constructor
  · exact List.filter_sublist rs
  · exact Nat.add_sub_cancel' (List.length_filter_le _ rs)

/-- C3. In bounding-box mode, a record with present coordinates is in the
filtered output iff it is in the input and its coordinates satisfy the
inclusive bounds on both axes. -/
theorem box_mode_retention (f : RegionFilter) (b : BoundingBox)
    (rs : List PointRecord) (r : PointRecord) (la lo : ℚ)
    (hla : r.latitude = some la) (hlo : r.longitude = some lo) :
    r ∈ (f.apply rs (.box b)).records ↔
      r ∈ rs ∧ (b.lat_min ≤ la ∧ la ≤ b.lat_max ∧
                b.lon_min ≤ lo ∧ lo ≤ b.lon_max) := by
  rw [RegionFilter.apply]
  simp only [List.mem_filter, retains, hla, hlo, inBox]
  simp [and_assoc]

/-- Witness for C3: the corner point (lat_min, lon_min) is retained, a
point 0.0001 degrees below lat_min is removed. -/
theorem box_mode_retention_witness :
    rec0 ∈ (filter0.apply rs0 (.box box0)).records ∧
      rec1 ∉ (filter0.apply rs0 (.box box0)).records := by
  constructor
  · exact (box_mode_retention filter0 box0 rs0 rec0 (-21) (-42) rfl rfl).mpr
      ⟨by simp [rs0], by norm_num [box0]⟩
  · intro hmem
    have h := (box_mode_retention filter0 box0 rs0 rec1
      (-21 - 1/10000) (-42) rfl rfl).mp hmem
    have : (box0.lat_min : ℚ) ≤ -21 - 1/10000 := h.2.1
    norm_num [box0] at this

/-- C5. When boundary-mode evaluation cannot be completed (engine
unavailable or malformed description), applying the filter to a Boundary
region gives exactly the result of applying it to the configured
bounding box; the fallback is total, so no exception reaches the caller. -/
theorem boundary_fallback (f : RegionFilter) (bd : Boundary)
    (rs : List PointRecord)
    (h : f.engineAvailable = false ∨ bd.wellFormed = false) :
    f.apply rs (.boundary bd) = f.apply rs (.box f.box) := by
  have hpred : ∀ r : PointRecord,
      retains f (.boundary bd) r = retains f (.box f.box) r := by
    intro r
    rw [retains, retains]
    rcases h with h | h <;>
      cases r.latitude <;> cases r.longitude <;> simp [h]
  rw [RegionFilter.apply, RegionFilter.apply]
  have : rs.filter (retains f (.boundary bd))
      = rs.filter (retains f (.box f.box)) :=
    List.filter_congr (fun r _ => hpred r)
  rw [this]

/-- Witness for C5: with the engine unavailable, filtering through the
well-formed triangular boundary equals filtering through the box. -/
theorem boundary_fallback_witness :
    filterNoEngine.apply rs0 (.boundary boundary0)
      = filterNoEngine.apply rs0 (.box filterNoEngine.box) :=
  boundary_fallback filterNoEngine boundary0 rs0 (Or.inl rfl)

/-- A record with a missing or non-finite coordinate. -/
def coordsMissing (r : PointRecord) : Bool :=
  r.latitude.isNone || r.longitude.isNone

/-- C8. In either mode, every record with a missing or non-finite
coordinate is excluded: the removed count is at least the number of such
records, and every retained record has both coordinates present.  The
filter is a total function, so no exception is raised. -/
theorem missing_coords_removed (f : RegionFilter)
    (region : RegionDefinition) (rs : List PointRecord) :
    rs.countP coordsMissing ≤ (f.apply rs region).removed_count ∧
      ((f.apply rs region).records.all
        (fun r => r.latitude.isSome && r.longitude.isSome)) = true := by
  have hfalse : ∀ r : PointRecord, coordsMissing r = true →
      retains f region r = false := by
    intro r hr
    rw [retains]
    rw [coordsMissing] at hr
    cases hla : r.latitude <;> cases hlo : r.longitude <;>
      simp_all
  constructor
  · have key : rs.countP coordsMissing + rs.countP (retains f region)
        ≤ rs.length := by
      induction rs with
      | nil => simp
      | cons a l ih =>
          rcases ha : coordsMissing a with _ | _
          · rcases hr : retains f region a with _ | _ <;>
              simp [List.countP_cons, ha, hr] <;> omega
          · have hf := hfalse a ha
            simp [List.countP_cons, ha, hf]
            omega
    have hlen : (rs.filter (retains f region)).length
        = rs.countP (retains f region) :=
      (List.countP_eq_length_filter _ _).symm
    show rs.countP coordsMissing
      ≤ rs.length - (rs.filter (retains f region)).length
    omega
  · rw [List.all_eq_true]
    intro r hr
    have hmem := List.mem_filter.mp hr
    have hret := hmem.2
    by_contra hne
    have : coordsMissing r = true := by
      rw [coordsMissing]
      cases hla : r.latitude <;> cases hlo : r.longitude <;>
        simp_all
    rw [hfalse r this] at hret
    exact Bool.false_ne_true hret

/-- C10. `carregar_dados` tries the corrected CSV first: a successful
first read wins with its path, a failed first read falls through to the
second, and when both reads fail the loader returns `none` rather than
propagating the exception. -/
theorem carregar_dados_first_success {α : Type}
    (read : String → Except String α) :
    (∀ d : α, read "alunos_emocoes_1000_corrigido.csv" = .ok d →
        carregar_dados read = some (d, "alunos_emocoes_1000_corrigido.csv"))
    ∧ (∀ (e : String) (d : α),
        read "alunos_emocoes_1000_corrigido.csv" = .error e →
        read "alunos_emocoes_1000.csv" = .ok d →
        carregar_dados read = some (d, "alunos_emocoes_1000.csv"))
    ∧ (∀ e₁ e₂ : String,
        read "alunos_emocoes_1000_corrigido.csv" = .error e₁ →
        read "alunos_emocoes_1000.csv" = .error e₂ →
        carregar_dados read = none) := by
  refine ⟨?_, ?_, ?_⟩ <;> intros <;>
    simp_all [carregar_dados, candidatePaths, tryPaths]

/-- A concrete reader for which only the original CSV loads. -/
def readOnlySecond : String → Except String Nat :=
  fun p => if p = "alunos_emocoes_1000.csv" then .ok 7 else .error "missing"

/-- Witness for C10: with only the second candidate readable, the loader
returns the second dataset with its path. -/
theorem carregar_dados_witness :
    carregar_dados readOnlySecond = some (7, "alunos_emocoes_1000.csv") :=
  (carregar_dados_first_success readOnlySecond).2.1 "missing" 7
    (by rw [readOnlySecond]; simp) (by rw [readOnlySecond]; simp)

/-- A record with a wrong-signed (positive) longitude for a western
target. -/
def wrongLonRec : PointRecord := ⟨some (-20), some 40, []⟩

/-- A record with a correctly signed (negative) longitude for a western
target. -/
def okLonRec : PointRecord := ⟨some (-20), some (-40), []⟩

/-- A batch of 100 records, 61 of which have a wrong-signed (positive)
longitude for a western target, matching the spec's threshold example. -/
def batch61 : List PointRecord :=
  List.replicate 61 wrongLonRec ++ List.replicate 39 okLonRec

/-- Counting over a constant batch yields all or nothing. -/
theorem countP_replicate {α : Type} (p : α → Bool) (n : ℕ) (a : α) :
    (List.replicate n a).countP p = if p a then n else 0 := by
  induction n with
  | zero => simp
  | succ n ih =>
      rw [List.replicate_succ, List.countP_cons, ih]
      rcases h : p a with _ | _ <;> simp [h]

/-- The longitude flip count reported by `sanitize` is the count produced
by the longitude sign-correction step. -/
theorem sanitize_lon_flips_eq (tgt : HemisphereSign)
    (rs : List PointRecord) :
    (sanitize tgt rs).2.lon_flips = (fixLonSigns tgt.lon rs).2 := by
  simp only [sanitize]
  split <;> rfl

/-- C1. For a non-empty batch, if the fraction of wrong-signed longitudes
exceeds 0.6 then the sign-correction step negates exactly the wrong-signed
longitudes and `sanitize` reports their count; if the fraction is at most
0.6 the step changes nothing and the reported count is zero. -/
theorem lon_sign_threshold (tgt : HemisphereSign) (rs : List PointRecord)
    (h : rs ≠ []) :
    ((3 / 5 : ℚ) < (rs.countP (wrongLon tgt.lon) : ℚ) / (rs.length : ℚ) →
      (fixLonSigns tgt.lon rs).1 = rs.map (negWrongLon tgt.lon) ∧
      (sanitize tgt rs).2.lon_flips = rs.countP (wrongLon tgt.lon)) ∧
    ((rs.countP (wrongLon tgt.lon) : ℚ) / (rs.length : ℚ) ≤ (3 / 5 : ℚ) →
      (fixLonSigns tgt.lon rs).1 = rs ∧
      (sanitize tgt rs).2.lon_flips = 0) := by
  have hn : 0 < rs.length := List.length_pos.mpr h
  have hnq : (0 : ℚ) < (rs.length : ℚ) := by exact_mod_cast hn
  have hbridge :
      ((3 / 5 : ℚ) < (rs.countP (wrongLon tgt.lon) : ℚ) / (rs.length : ℚ))
        ↔ 3 * rs.length < 5 * rs.countP (wrongLon tgt.lon) := by
    rw [lt_div_iff₀ hnq]
    constructor
    · intro hx
      have hq : ((3 * rs.length : ℕ) : ℚ)
          < ((5 * rs.countP (wrongLon tgt.lon) : ℕ) : ℚ) := by
        push_cast
        linarith
      exact_mod_cast hq
    · intro hx
      have hq : ((3 * rs.length : ℕ) : ℚ)
          < ((5 * rs.countP (wrongLon tgt.lon) : ℕ) : ℚ) := by
        exact_mod_cast hx
      push_cast at hq
      linarith
  constructor
  · intro hc
    have hcond := hbridge.mp hc
    refine ⟨?_, ?_⟩
    · rw [fixLonSigns, if_pos hcond]
    · rw [sanitize_lon_flips_eq, fixLonSigns, if_pos hcond]
  · intro hc
    have hcond : ¬ (3 * rs.length < 5 * rs.countP (wrongLon tgt.lon)) :=
      fun hx => absurd (hbridge.mpr hx) (not_lt.mpr hc)
    refine ⟨?_, ?_⟩
    · rw [fixLonSigns, if_neg hcond]
    · rw [sanitize_lon_flips_eq, fixLonSigns, if_neg hcond]

/-- Witness for C1: on the 61%-wrong batch every wrong-signed longitude is
negated and the reported count is the wrong-signed count (61). -/
theorem lon_sign_threshold_witness :
    (fixLonSigns esTarget.lon batch61).1
        = batch61.map (negWrongLon esTarget.lon) ∧
      (sanitize esTarget batch61).2.lon_flips
        = batch61.countP (wrongLon esTarget.lon) := by
  have hw : wrongLon esTarget.lon wrongLonRec = true := by
    simp [wrongLon, wrongLonRec, wrongSign, esTarget]
  have hok : wrongLon esTarget.lon okLonRec = false := by
    simp [wrongLon, okLonRec, wrongSign, esTarget]
  have hcount : batch61.countP (wrongLon esTarget.lon) = 61 := by
    rw [batch61, List.countP_append, countP_replicate, countP_replicate,
      hw, hok]
    simp
  have hlen : batch61.length = 100 := by
    simp [batch61]
  refine (lon_sign_threshold esTarget batch61 ?_).1 ?_
  · simp [batch61]
  · rw [hcount, hlen]
    norm_num

/-- C6. `centroid` of a non-empty batch with all coordinates present is
the pair of arithmetic means of the latitude and longitude values, and
`centroid` of the empty batch is the fixed nominal region center. -/
theorem centroid_mean (rs : List PointRecord) (hne : rs ≠ [])
    (hfin : ∀ r ∈ rs, r.latitude.isSome ∧ r.longitude.isSome) :
    centroid rs =
      ((rs.map (fun r => r.latitude.getD 0)).sum / (rs.length : ℚ),
       (rs.map (fun r => r.longitude.getD 0)).sum / (rs.length : ℚ)) ∧
    centroid [] = NOMINAL_CENTER := by
  refine ⟨?_, rfl⟩
  have hlat : presentLatCount rs = rs.length :=
    List.countP_eq_length.mpr (fun r hr => (hfin r hr).1)
  have hlon : presentLonCount rs = rs.length :=
    List.countP_eq_length.mpr (fun r hr => (hfin r hr).2)
  have hemp : rs.isEmpty = false := by
    cases rs with
    | nil => exact absurd rfl hne
    | cons a l => rfl
  rw [centroid, hemp, hlat, hlon]
  simp

/-- A small concrete all-present batch for the centroid witness. -/
def rsC : List PointRecord :=
  [⟨some (-20), some (-40), []⟩, ⟨some (-19), some (-41), []⟩]

/-- Witness for C6: centroid of a concrete two-record batch is the mean
pair, and the empty batch yields the nominal center constant. -/
theorem centroid_mean_witness :
    centroid rsC = ((-39 : ℚ) / 2, (-81 : ℚ) / 2) ∧
      centroid [] = NOMINAL_CENTER := by
  have h := centroid_mean rsC (by decide) (by decide)
  refine ⟨h.1.trans ?_, h.2⟩
  norm_num [rsC]

/-- Longitude sign correction preserves each record's attributes. -/
theorem attrs_negWrongLon (t : Int) (r : PointRecord) :
    (negWrongLon t r).attributes = r.attributes := by
  rw [negWrongLon]
  split <;> rfl

/-- Latitude sign correction preserves each record's attributes. -/
theorem attrs_negWrongLat (t : Int) (r : PointRecord) :
    (negWrongLat t r).attributes = r.attributes := by
  rw [negWrongLat]
  split <;> rfl

/-- Mapping an attribute-preserving transform over a batch preserves the
attribute column. -/
theorem attrs_map_eq (f : PointRecord → PointRecord)
    (hf : ∀ r, (f r).attributes = r.attributes) (rs : List PointRecord) :
    (rs.map f).map (fun r => r.attributes)
      = rs.map (fun r => r.attributes) := by
  rw [List.map_map]
  exact List.map_eq_map_iff.mpr (fun r _ => hf r)

/-- C9. `sanitize` preserves the attribute column of the batch (only the
coordinate fields of a record are rewritten), and every record retained by
`RegionFilter.apply` is literally a record of the input batch (the filter
modifies nothing). -/
theorem frame_effects (tgt : HemisphereSign) (f : RegionFilter)
    (region : RegionDefinition) (rs : List PointRecord) :
    ((sanitize tgt rs).1.map (fun r => r.attributes))
        = rs.map (fun r => r.attributes) ∧
      ∀ r ∈ (f.apply rs region).records, r ∈ rs := by
  constructor
  · have h1 : ((fixLonSigns tgt.lon rs).1.map (fun r => r.attributes))
        = rs.map (fun r => r.attributes) := by
      rw [fixLonSigns]
      split
      · exact attrs_map_eq (negWrongLon tgt.lon) (attrs_negWrongLon tgt.lon) rs
      · rfl
    have h2 : ((fixLatSigns tgt.lat (fixLonSigns tgt.lon rs).1).1.map
          (fun r => r.attributes))
        = (fixLonSigns tgt.lon rs).1.map (fun r => r.attributes) := by
      rw [fixLatSigns]
      split
      · exact attrs_map_eq (negWrongLat tgt.lat) (attrs_negWrongLat tgt.lat) _
      · rfl
    simp only [sanitize]
    split
    · exact (attrs_map_eq swapRecord (fun r => rfl) _).trans (h2.trans h1)
    · exact h2.trans h1
  · intro r hr
    simp only [RegionFilter.apply, List.mem_filter] at hr
    exact hr.1

/-- Witness for C9: attributes pass through `sanitize` on the concrete
batch, and a concretely retained record is a record of the input. -/
theorem frame_effects_witness :
    ((sanitize esTarget rs0).1.map (fun r => r.attributes))
        = rs0.map (fun r => r.attributes) ∧ rec0 ∈ rs0 := by
  have h := frame_effects esTarget filter0 (.box box0) rs0
  refine ⟨h.1, h.2 rec0 ?_⟩
  show rec0 ∈ rs0.filter (retains filter0 (.box box0))
  refine List.mem_filter.mpr ⟨by simp [rs0], ?_⟩
  simp [retains, rec0, filter0, box0, inBox]
  norm_num

/-- The swapped flag reported by `sanitize` is the swap-detection verdict
on the sign-corrected batch. -/
theorem sanitize_swapped_eq (tgt : HemisphereSign)
    (rs : List PointRecord) :
    (sanitize tgt rs).2.swapped = swapNeeded (signFixed tgt rs) := by
  simp only [sanitize, signFixed]
  split <;> simp_all

/-- The sanitized batch is the sign-corrected batch, with every record's
coordinates exchanged exactly when swap detection fired. -/
theorem sanitize_fst_eq (tgt : HemisphereSign) (rs : List PointRecord) :
    (sanitize tgt rs).1 =
      (if swapNeeded (signFixed tgt rs) = true
       then (signFixed tgt rs).map swapRecord
       else signFixed tgt rs) := by
  simp only [sanitize, signFixed]
  split <;> simp_all

/-- C2. After the two sign-correction steps, `sanitize` reports a swap iff
the mean absolute longitude of the sign-corrected batch is below 30 and
its mean absolute latitude exceeds 30, and in exactly that case the output
exchanges the latitude and longitude of every record. -/
theorem swap_detection (tgt : HemisphereSign) (rs : List PointRecord)
    (h1 : 0 < presentLonCount (signFixed tgt rs))
    (h2 : 0 < presentLatCount (signFixed tgt rs)) :
    ((sanitize tgt rs).2.swapped = true ↔
      (sumAbsLon (signFixed tgt rs)
          / (presentLonCount (signFixed tgt rs) : ℚ) < 30 ∧
       30 < sumAbsLat (signFixed tgt rs)
          / (presentLatCount (signFixed tgt rs) : ℚ))) ∧
    (sanitize tgt rs).1 =
      (if (sanitize tgt rs).2.swapped = true
       then (signFixed tgt rs).map swapRecord
       else signFixed tgt rs) := by
  have hq1 : (0 : ℚ) < (presentLonCount (signFixed tgt rs) : ℚ) := by
    exact_mod_cast h1
  have hq2 : (0 : ℚ) < (presentLatCount (signFixed tgt rs) : ℚ) := by
    exact_mod_cast h2
  constructor
  · rw [sanitize_swapped_eq, swapNeeded, Bool.and_eq_true,
      decide_eq_true_eq, decide_eq_true_eq]
    constructor
    · rintro ⟨c1, c2⟩
      exact ⟨(div_lt_iff₀ hq1).mpr (by linarith),
        (lt_div_iff₀ hq2).mpr (by linarith)⟩
    · rintro ⟨c1, c2⟩
      have d1 := (div_lt_iff₀ hq1).mp c1
      have d2 := (lt_div_iff₀ hq2).mp c2
      exact ⟨by linarith, by linarith⟩
  · rw [sanitize_swapped_eq]
    exact sanitize_fst_eq tgt rs

/-- A record at lat −40.4, lon −19.4 (swapped-looking magnitudes for the
target region). -/
def recSwapA : PointRecord := ⟨some (-202/5), some (-97/5), []⟩

/-- A record at lat −40.6, lon −19.6. -/
def recSwapB : PointRecord := ⟨some (-203/5), some (-98/5), []⟩

/-- The spec's literal swap-detection input: 100 rows with lon −19.5±0.1
and lat −40.5±0.1. -/
def batch100 : List PointRecord :=
  List.replicate 50 recSwapA ++ List.replicate 50 recSwapB

/-- Witness for C2: on the literal 100-row batch the sanitizer reports
`swapped = true` and exchanges latitude and longitude of every record. -/
theorem swap_detection_witness :
    (sanitize esTarget batch100).2.swapped = true ∧
      (sanitize esTarget batch100).1 = batch100.map swapRecord := by
  have hwlA : wrongLon esTarget.lon recSwapA = false := by
    simp only [wrongLon, recSwapA, wrongSign, esTarget]
    norm_num
  have hwlB : wrongLon esTarget.lon recSwapB = false := by
    simp only [wrongLon, recSwapB, wrongSign, esTarget]
    norm_num
  have hwaA : wrongLat esTarget.lat recSwapA = false := by
    simp only [wrongLat, recSwapA, wrongSign, esTarget]
    norm_num
  have hwaB : wrongLat esTarget.lat recSwapB = false := by
    simp only [wrongLat, recSwapB, wrongSign, esTarget]
    norm_num
  have hcl : batch100.countP (wrongLon esTarget.lon) = 0 := by
    rw [batch100, List.countP_append, countP_replicate, countP_replicate,
      hwlA, hwlB]
    simp
  have hca : batch100.countP (wrongLat esTarget.lat) = 0 := by
    rw [batch100, List.countP_append, countP_replicate, countP_replicate,
      hwaA, hwaB]
    simp
  have e1 : fixLonSigns esTarget.lon batch100 = (batch100, 0) := by
    rw [fixLonSigns, if_neg (by rw [hcl]; simp)]
  have e2 : fixLatSigns esTarget.lat batch100 = (batch100, 0) := by
    rw [fixLatSigns, if_neg (by rw [hca]; simp)]
  have hsf : signFixed esTarget batch100 = batch100 := by
    rw [signFixed, e1, e2]
  have hplc : presentLonCount batch100 = 100 := by
    simp [presentLonCount, batch100, countP_replicate, recSwapA, recSwapB]
  have hpla : presentLatCount batch100 = 100 := by
    simp [presentLatCount, batch100, countP_replicate, recSwapA, recSwapB]
  have hsl : sumAbsLon batch100 = 1950 := by
    rw [sumAbsLon, batch100]
    simp [List.sum_replicate, recSwapA, recSwapB, absOpt]
    norm_num [abs_of_nonpos]
  have hsa : sumAbsLat batch100 = 4050 := by
    rw [sumAbsLat, batch100]
    simp [List.sum_replicate, recSwapA, recSwapB, absOpt]
    norm_num [abs_of_nonpos]
  have h := swap_detection esTarget batch100
    (by rw [hsf, hplc]; norm_num) (by rw [hsf, hpla]; norm_num)
  have hswapped : (sanitize esTarget batch100).2.swapped = true := by
    refine h.1.mpr ⟨?_, ?_⟩
    · rw [hsf, hplc, hsl]
      norm_num
    · rw [hsf, hpla, hsa]
      norm_num
  refine ⟨hswapped, ?_⟩
  have h2 := h.2
  rw [hswapped, if_pos rfl, hsf] at h2
  exact h2

/-- Negating a wrong-signed value yields a value that is not wrong-signed. -/
theorem wrongSign_neg {t : Int} {v : ℚ} (h : wrongSign t v = true) :
    wrongSign t (-v) = false := by
  rw [wrongSign] at h ⊢
  by_cases ht : t < 0 <;> simp [ht] at h ⊢ <;> linarith

/-- After conditional negation, a record's longitude is never
wrong-signed. -/
theorem wrongLon_negWrongLon (t : Int) (r : PointRecord) :
    wrongLon t (negWrongLon t r) = false := by
  rcases hw : wrongLon t r with _ | _
  · rw [negWrongLon, hw]
    simp [hw]
  · rw [negWrongLon, hw]
    simp only [if_pos rfl]
    cases hl : r.longitude with
    | none => simp [wrongLon, hl] at hw
    | some v =>
        simp only [wrongLon, hl] at hw
        simp only [wrongLon, hl, Option.map_some]
        exact wrongSign_neg hw
  -- simp on goal: wrongLon of updated record

/-- After conditional negation, a record's latitude is never
wrong-signed. -/
theorem wrongLat_negWrongLat (t : Int) (r : PointRecord) :
    wrongLat t (negWrongLat t r) = false := by
  rcases hw : wrongLat t r with _ | _
  · rw [negWrongLat, hw]
    simp [hw]
  · rw [negWrongLat, hw]
    simp only [if_pos rfl]
    cases hl : r.latitude with
    | none => simp [wrongLat, hl] at hw
    | some v =>
        simp only [wrongLat, hl] at hw
        simp only [wrongLat, hl, Option.map_some]
        exact wrongSign_neg hw

/-- Latitude correction does not touch the longitude field. -/
theorem wrongLon_negWrongLat (tl t : Int) (r : PointRecord) :
    wrongLon tl (negWrongLat t r) = wrongLon tl r := by
  rw [negWrongLat]
  split <;> rfl

/-- Longitude correction does not touch the latitude field. -/
theorem wrongLat_negWrongLon (tl t : Int) (r : PointRecord) :
    wrongLat tl (negWrongLon t r) = wrongLat tl r := by
  rw [negWrongLon]
  split <;> rfl

/-- The longitude sign-correction step preserves the batch length. -/
theorem fixLonSigns_fst_length (t : Int) (rs : List PointRecord) :
    (fixLonSigns t rs).1.length = rs.length := by
  rw [fixLonSigns]
  split <;> simp

/-- The latitude sign-correction step preserves the batch length. -/
theorem fixLatSigns_fst_length (t : Int) (rs : List PointRecord) :
    (fixLatSigns t rs).1.length = rs.length := by
  rw [fixLatSigns]
  split <;> simp

/-- After the longitude step, the wrong-signed-longitude fraction is at
most the threshold (zero when a flip happened, unchanged and below
threshold when not). -/
theorem countP_wrongLon_after_fixLon (t : Int) (rs : List PointRecord) :
    ¬ (3 * (fixLonSigns t rs).1.length
        < 5 * (fixLonSigns t rs).1.countP (wrongLon t)) := by
  rw [fixLonSigns]
  split
  · rw [List.countP_map, List.length_map]
    have h0 : rs.countP (wrongLon t ∘ negWrongLon t) = 0 :=
      List.countP_eq_zero.mpr
        (fun a _ => by simp [Function.comp, wrongLon_negWrongLon])
    rw [h0]
    omega
  · assumption

/-- After the latitude step, the wrong-signed-latitude fraction is at most
the threshold. -/
theorem countP_wrongLat_after_fixLat (t : Int) (rs : List PointRecord) :
    ¬ (3 * (fixLatSigns t rs).1.length
        < 5 * (fixLatSigns t rs).1.countP (wrongLat t)) := by
  rw [fixLatSigns]
  split
  · rw [List.countP_map, List.length_map]
    have h0 : rs.countP (wrongLat t ∘ negWrongLat t) = 0 :=
      List.countP_eq_zero.mpr
        (fun a _ => by simp [Function.comp, wrongLat_negWrongLat])
    rw [h0]
    omega
  · assumption

/-- The latitude step does not change the wrong-signed-longitude count. -/
theorem countP_wrongLon_fixLat (tl t : Int) (rs : List PointRecord) :
    (fixLatSigns t rs).1.countP (wrongLon tl)
      = rs.countP (wrongLon tl) := by
  rw [fixLatSigns]
  split
  · rw [List.countP_map]
    exact countP_congr_eq rs (fun a _ => wrongLon_negWrongLat tl t a)
  · rfl

/-- Swapping coordinates turns the wrong-longitude test into the
wrong-latitude test. -/
theorem wrongLon_swapRecord (t : Int) (r : PointRecord) :
    wrongLon t (swapRecord r) = wrongLat t r := rfl

/-- Swapping coordinates turns the wrong-latitude test into the
wrong-longitude test. -/
theorem wrongLat_swapRecord (t : Int) (r : PointRecord) :
    wrongLat t (swapRecord r) = wrongLon t r := rfl

/-- Swapping every record exchanges the two absolute-sum statistics. -/
theorem sumAbsLon_map_swap (rs : List PointRecord) :
    sumAbsLon (rs.map swapRecord) = sumAbsLat rs := by
  rw [sumAbsLon, sumAbsLat, List.map_map]
  rfl

/-- Swapping every record exchanges the two presence counts. -/
theorem presentLonCount_map_swap (rs : List PointRecord) :
    presentLonCount (rs.map swapRecord) = presentLatCount rs := by
  rw [presentLonCount, presentLatCount, List.countP_map]
  rfl

/-- C7 (amended).  When the latitude and longitude target hemisphere signs
agree — as they do for the source's single target region — `sanitize` is
idempotent: a second application returns the sanitized batch unchanged
with an all-zero report. -/
theorem sanitize_idempotent_eq_signs (tgt : HemisphereSign)
    (rs : List PointRecord) (h : tgt.lat = tgt.lon) :
    sanitize tgt ((sanitize tgt rs).1)
      = ((sanitize tgt rs).1, ⟨0, 0, false⟩) := by
  have hfst := sanitize_fst_eq tgt rs
  have hlen2 : (signFixed tgt rs).length
      = (fixLonSigns tgt.lon rs).1.length := by
    rw [signFixed, fixLatSigns_fst_length]
  have A1 : ¬ (3 * (signFixed tgt rs).length
      < 5 * (signFixed tgt rs).countP (wrongLon tgt.lon)) := by
    rw [signFixed, countP_wrongLon_fixLat, ← signFixed, hlen2]
    exact countP_wrongLon_after_fixLon tgt.lon rs
  have A2 : ¬ (3 * (signFixed tgt rs).length
      < 5 * (signFixed tgt rs).countP (wrongLat tgt.lat)) := by
    rw [signFixed]
    exact countP_wrongLat_after_fixLat tgt.lat (fixLonSigns tgt.lon rs).1
  rcases hsw : swapNeeded (signFixed tgt rs) with _ | _
  · rw [hsw] at hfst
    simp at hfst
    rw [hfst]
    have e1 : fixLonSigns tgt.lon (signFixed tgt rs)
        = (signFixed tgt rs, 0) := by
      rw [fixLonSigns, if_neg A1]
    have e2 : fixLatSigns tgt.lat (signFixed tgt rs)
        = (signFixed tgt rs, 0) := by
      rw [fixLatSigns, if_neg A2]
    simp only [sanitize]
    simp [e1, e2, hsw]
  · rw [hsw] at hfst
    simp at hfst
    rw [hfst]
    have hc12 : sumAbsLon (signFixed tgt rs)
          < 30 * (presentLonCount (signFixed tgt rs) : ℚ) ∧
        30 * (presentLatCount (signFixed tgt rs) : ℚ)
          < sumAbsLat (signFixed tgt rs) := by
      rw [swapNeeded, Bool.and_eq_true, decide_eq_true_eq,
        decide_eq_true_eq] at hsw
      exact hsw
    have e1 : fixLonSigns tgt.lon ((signFixed tgt rs).map swapRecord)
        = ((signFixed tgt rs).map swapRecord, 0) := by
      refine (fixLonSigns _ _).eta ▸ ?_
      rw [fixLonSigns]
      rw [if_neg ?_]
      rw [List.length_map, List.countP_map]
      have hc : (signFixed tgt rs).countP (wrongLon tgt.lon ∘ swapRecord)
          = (signFixed tgt rs).countP (wrongLat tgt.lat) := by
        rw [h]
        exact countP_congr_eq _ (fun a _ => wrongLon_swapRecord tgt.lon a)
      rw [hc]
      exact A2
    have e2 : fixLatSigns tgt.lat ((signFixed tgt rs).map swapRecord)
        = ((signFixed tgt rs).map swapRecord, 0) := by
      rw [fixLatSigns]
      rw [if_neg ?_]
      rw [List.length_map, List.countP_map]
      have hc : (signFixed tgt rs).countP (wrongLat tgt.lat ∘ swapRecord)
          = (signFixed tgt rs).countP (wrongLon tgt.lon) := by
        have hc0 : (signFixed tgt rs).countP (wrongLat tgt.lat ∘ swapRecord)
            = (signFixed tgt rs).countP (wrongLon tgt.lat) :=
          countP_congr_eq _ (fun a _ => wrongLat_swapRecord tgt.lat a)
        rw [hc0, h]
      rw [hc]
      exact A1
    have e3 : swapNeeded ((signFixed tgt rs).map swapRecord) = false := by
      have hns : ¬ (sumAbsLat (signFixed tgt rs)
          < 30 * (presentLatCount (signFixed tgt rs) : ℚ)) :=
        not_lt.mpr (le_of_lt hc12.2)
      simp [swapNeeded, sumAbsLon_map_swap, presentLonCount_map_swap, hns]
    simp only [sanitize]
    simp [e1, e2, e3]

/-- A target with mixed hemisphere signs: northern latitude, western
longitude. -/
def mixedTarget : HemisphereSign := ⟨1, -1⟩

/-- A single-record batch that the first `sanitize` pass swaps, exposing
lat-corrected values to the longitude test of a second pass. -/
def mixedBatch : List PointRecord := [⟨some 45, some (-10), []⟩]

/-- Counterexample to C7 as stated: with mixed-sign targets, applying
`sanitize` to an already-sanitized batch changes it again — the first
pass swaps the columns, and the second pass then sign-flips both. -/
theorem sanitize_not_idempotent_mixed :
    ¬ (sanitize mixedTarget ((sanitize mixedTarget mixedBatch).1)
        = ((sanitize mixedTarget mixedBatch).1, ⟨0, 0, false⟩)) := by
  have ha : mixedBatch.countP (wrongLon mixedTarget.lon) = 0 := by
    simp [mixedBatch, wrongLon, wrongSign, mixedTarget]
  have hb : mixedBatch.countP (wrongLat mixedTarget.lat) = 0 := by
    simp [mixedBatch, wrongLat, wrongSign, mixedTarget]
  have e1 : fixLonSigns mixedTarget.lon mixedBatch = (mixedBatch, 0) := by
    rw [fixLonSigns, if_neg (by rw [ha]; omega)]
  have e2 : fixLatSigns mixedTarget.lat mixedBatch = (mixedBatch, 0) := by
    rw [fixLatSigns, if_neg (by rw [hb]; omega)]
  have hsf : signFixed mixedTarget mixedBatch = mixedBatch := by
    rw [signFixed, e1, e2]
  have e3 : swapNeeded mixedBatch = true := by
    have hs1 : sumAbsLon mixedBatch = 10 := by
      simp [sumAbsLon, mixedBatch, absOpt]
    have hs2 : sumAbsLat mixedBatch = 45 := by
      simp [sumAbsLat, mixedBatch, absOpt]
    have hp1 : presentLonCount mixedBatch = 1 := by
      simp [presentLonCount, mixedBatch]
    have hp2 : presentLatCount mixedBatch = 1 := by
      simp [presentLatCount, mixedBatch]
    rw [swapNeeded, hs1, hs2, hp1, hp2]
    norm_num
  have hfl : (sanitize mixedTarget mixedBatch).1
      = [⟨some (-10), some 45, []⟩] := by
    rw [sanitize_fst_eq, hsf, e3, if_pos rfl]
    rfl
  have hcnt2 : ([(⟨some (-10), some 45, []⟩ : PointRecord)]).countP
      (wrongLon mixedTarget.lon) = 1 := by
    simp [wrongLon, wrongSign, mixedTarget]
  have h2 : (sanitize mixedTarget
      [(⟨some (-10), some 45, []⟩ : PointRecord)]).2.lon_flips = 1 := by
    rw [sanitize_lon_flips_eq, fixLonSigns, if_pos (by simp [hcnt2])]
    exact hcnt2
  intro hcon
  have hz : (sanitize mixedTarget
      ((sanitize mixedTarget mixedBatch).1)).2.lon_flips = 0 := by
    rw [hcon]
  rw [hfl] at hz
  omega

/-- Witness for the amended C7: with the source's equal-sign target,
re-sanitizing the sanitized concrete batch returns it unchanged with an
all-zero report. -/
theorem sanitize_idempotent_witness :
    sanitize esTarget ((sanitize esTarget rsC).1)
      = ((sanitize esTarget rsC).1, ⟨0, 0, false⟩) :=
  sanitize_idempotent_eq_signs esTarget rsC rfl
